import Mathlib

/-!
Shallow embedding of `src/security/validator-config.cpp` (class `ValidatorConfig`
of ndn-cxx): configuration loading (`load`, `onConfigRule`, `onConfigTrustAnchor`)
and the policy-evaluation entry points `checkPolicy` for Data and Interest
packets.  Pure data is modelled directly; the C++ member mutation of
`m_dataRules` / `m_interestRules` / `m_anchors` is modelled by explicit state
passing, and thrown `security::conf::Error` exceptions by `Except` /
error-option results.  External collaborators that are not part of this
translation unit (filter and checker factories, certificate I/O) are passed in
as explicit function parameters.
-/

/-- An NDN name: the ordered list of its components (component values). -/
abbrev Name := List String

/-- Model of `Name::getPrefix(-k)`: the name without its last `k` components. -/
def Name.getPrefixNeg (n : Name) (k : Nat) : Name :=
  n.take (n.length - k)

/-- Model of `Name::operator[](-k)` (indexing from the end, as used at
`interestName[-2]` and `interestName[-1]`); the out-of-range case, which throws
in the source, is `none`. -/
def Name.compAtNeg (n : Name) (k : Nat) : Option String :=
  if 1 ≤ k ∧ k ≤ n.length then n.get? (n.length - k) else none

/-- Case-insensitive string comparison, model of `boost::iequals`. -/
def iequals (a b : String) : Bool :=
  a.data.map Char.toLower == b.data.map Char.toLower

/-- A Data packet, as seen by `ValidatorConfig::checkPolicy`: its name and its
signature (opaque here, only handed on to `checkSignature`). -/
structure Data where
  name : Name
  signature : Nat
deriving DecidableEq

/-- A (signed) Interest packet, as seen by `ValidatorConfig::checkPolicy`. -/
structure Interest where
  name : Name
deriving DecidableEq

/-- A loaded rule as consumed by the `checkPolicy` loops: `SecRule`'s virtual
`match` and `check` methods are external to this translation unit, so they are
modelled as opaque functions.  `check` returns the `int8_t` verdict of the
rule's checkers (`0` is the Continue verdict); any terminal callback a checker
makes is internal to `check` and not visible to `checkPolicy`. -/
structure Rule (α : Type) where
  id : String
  matchFn : α → Bool
  check : α → Int

/-- What `checkPolicy` itself does after its checks: which callback it invokes,
or that it hands the object on to `checkSignature` (chain validation). -/
inductive PolicyOutcome where
  | validationFailed (reason : String)
  | signatureCheckData (signature : Nat) (stepCount : Int)
  | signatureCheckInterest (signedName : Name) (sigInfo sigValue : String) (stepCount : Int)
  | checkerHandled (result : Int)
  | nameRangeError
deriving DecidableEq

/-- True exactly on the two `checkSignature` outcomes (chain validation). -/
def PolicyOutcome.isSignatureCheck : PolicyOutcome → Bool
  | .signatureCheckData _ _ => true
  | .signatureCheckInterest _ _ _ _ => true
  | _ => false

/-- Result of the first-match rule loop in `checkPolicy`: the `isMatched` flag
and `checkResult` value of the source, together with the evaluation trace (the
ids of the rules whose `match` was evaluated, and of the rules whose checkers
were run). -/
structure ScanResult where
  isMatched : Bool
  checkResult : Int
  matchEvals : List String
  checkEvals : List String
deriving DecidableEq

/-- The `for (it = rules.begin(); ...)` loop of `checkPolicy`: scan the ordered
rule list, stop at the first rule whose `match` is true and run its checkers;
`checkResult` keeps its initialization `-1` when no rule matches. -/
def ruleScan {α : Type} (obj : α) : List (Rule α) → ScanResult
  | [] => ⟨false, -1, [], []⟩
  | r :: rs =>
    if r.matchFn obj then ⟨true, r.check obj, [r.id], [r.id]⟩
    else
      let s := ruleScan obj rs
      ⟨s.isMatched, s.checkResult, r.id :: s.matchEvals, s.checkEvals⟩

/-- The first rule of the list whose `match` accepts the object. -/
def firstMatchingRule {α : Type} (rules : List (Rule α)) (obj : α) : Option (Rule α) :=
  rules.find? (fun r => r.matchFn obj)

/-- Outcome of `checkPolicy` together with the rule-evaluation trace. -/
structure PolicyResult where
  outcome : PolicyOutcome
  matchEvals : List String
  checkEvals : List String
deriving DecidableEq

/-- The part of `checkPolicy(Data, ...)` after the step-limit guard
(lines 286-308 of the source): rule scan, the "No rule matched!" failure, and
the `checkResult == 0` branch into `checkSignature`. -/
def dataMatchPhase (rules : List (Rule Data)) (d : Data) (stepCount : Int) : PolicyResult :=
  let s := ruleScan d rules
  if s.isMatched = false then
    ⟨.validationFailed "No rule matched!", s.matchEvals, s.checkEvals⟩
  else if s.checkResult = 0 then
    ⟨.signatureCheckData d.signature stepCount, s.matchEvals, s.checkEvals⟩
  else
    ⟨.checkerHandled s.checkResult, s.matchEvals, s.checkEvals⟩

/-- Model of `ValidatorConfig::checkPolicy(const Data&, int stepCount, ...)`. -/
def checkPolicyData (stepLimit : Int) (rules : List (Rule Data)) (d : Data)
    (stepCount : Int) : PolicyResult :=
  if stepLimit = stepCount then
    ⟨.validationFailed "Maximum steps of validation reached", [], []⟩
  else
    dataMatchPhase rules d stepCount

/-- The part of `checkPolicy(Interest, ...)` after the step-limit guard
(lines 322-348): rule scan, "No rule matched!", and on Continue the signature
reconstruction `interestName.getPrefix(-2)`, `interestName[-2]`,
`interestName[-1]` before `checkSignature`. -/
def interestMatchPhase (rules : List (Rule Interest)) (i : Interest)
    (stepCount : Int) : PolicyResult :=
  let s := ruleScan i rules
  if s.isMatched = false then
    ⟨.validationFailed "No rule matched!", s.matchEvals, s.checkEvals⟩
  else if s.checkResult = 0 then
    match Name.compAtNeg i.name 2, Name.compAtNeg i.name 1 with
    | some sigInfo, some sigValue =>
      ⟨.signatureCheckInterest (Name.getPrefixNeg i.name 2) sigInfo sigValue stepCount,
        s.matchEvals, s.checkEvals⟩
    | _, _ => ⟨.nameRangeError, s.matchEvals, s.checkEvals⟩
  else
    ⟨.checkerHandled s.checkResult, s.matchEvals, s.checkEvals⟩

/-- Model of `ValidatorConfig::checkPolicy(const Interest&, int stepCount, ...)`. -/
def checkPolicyInterest (stepLimit : Int) (rules : List (Rule Interest)) (i : Interest)
    (stepCount : Int) : PolicyResult :=
  if stepLimit = stepCount then
    ⟨.validationFailed "Maximum steps of validation reached", [], []⟩
  else
    interestMatchPhase rules i stepCount

/-- A node of the parsed configuration tree (`boost::property_tree`): a data
string and an ordered list of named children. -/
inductive ConfigSection where
  | mk (data : String) (children : List (String × ConfigSection))

/-- The data string of a configuration node (`node.data()`). -/
def ConfigSection.data : ConfigSection → String
  | .mk d _ => d

/-- The ordered children of a configuration node. -/
def ConfigSection.children : ConfigSection → List (String × ConfigSection)
  | .mk _ c => c

/-- The `security::conf::Error` exceptions thrown by loading, one constructor
per `throw` site of the source; `message` renders the exact C++ message. -/
inductive ConfError where
  | expectRuleId
  | expectRuleFor (ruleId : String)
  | unrecognizedFor (usage ruleId : String)
  | expectRuleFilter (ruleId : String)
  | expectRuleChecker (ruleId : String)
  | noChecker (ruleId : String)
  | factoryError (msg : String)
  | expectAnchorType
  | expectAnchorFileName
  | expectAnchorBase64
  | expectAnchorEnd
  | cannotReadCertFile (path : String)
  | cannotDecodeBase64
  | unsupportedAnchorType (anchorType : String)
  | unrecognizedSection (filename sectionName : String)
  | noData (filename : String)
deriving DecidableEq

/-- The exact message string each error is thrown with in the source. -/
def ConfError.message : ConfError → String
  | .expectRuleId => "Expect <rule.id>!"
  | .expectRuleFor ruleId => "Expect <rule.for> in rule: " ++ ruleId ++ "!"
  | .unrecognizedFor usage ruleId =>
      "Unrecognized <rule.for>: " ++ usage ++ " in rule: " ++ ruleId
  | .expectRuleFilter ruleId => "Expect <rule.filter> in rule: " ++ ruleId
  | .expectRuleChecker ruleId => "Expect <rule.checker> in rule: " ++ ruleId
  | .noChecker ruleId => "No <rule.checker> is specified in rule: " ++ ruleId
  | .factoryError msg => msg
  | .expectAnchorType => "Expect <trust-anchor.type>!"
  | .expectAnchorFileName => "Expect <trust-anchor.file-name>!"
  | .expectAnchorBase64 => "Expect <trust-anchor.base64-string>!"
  | .expectAnchorEnd => "Expect the end of trust-anchor!"
  | .cannotReadCertFile path => "Cannot read certificate from file: " ++ path
  | .cannotDecodeBase64 => "Cannot decode certificate from base64-string"
  | .unsupportedAnchorType anchorType => "Unsupported trust-anchor.type: " ++ anchorType
  | .unrecognizedSection filename sectionName =>
      "Error processing configuration file " ++ filename ++ " unrecognized section: " ++ sectionName
  | .noData filename => "Error processing configuration file: " ++ filename ++ " no data"

/-- The rule id an error message mentions, if any. -/
def ConfError.namesRuleId : ConfError → Option String
  | .expectRuleFor ruleId => some ruleId
  | .unrecognizedFor _ ruleId => some ruleId
  | .expectRuleFilter ruleId => some ruleId
  | .expectRuleChecker ruleId => some ruleId
  | .noChecker ruleId => some ruleId
  | _ => none

/-- Boolean success test for an `Except` result. -/
def isOkE {ε α : Type} : Except ε α → Bool
  | .ok _ => true
  | .error _ => false

/-- A rule as built by `onConfigRule`: its id and the filters and checkers the
factories produced, in configuration order. -/
structure ConfRule (F C : Type) where
  id : String
  filters : List F
  checkers : List C

/-- The mutable members of `ValidatorConfig` touched by loading: the two
insertion-ordered rule lists and the trust-anchor map (an association list
keyed by `Name`, with `std::map` insert-or-assign semantics via `mapInsert`). -/
structure ValidatorState (F C Cert : Type) where
  dataRules : List (ConfRule F C)
  interestRules : List (ConfRule F C)
  anchors : List (Name × Cert)

/-- Insert-or-assign on the trust-anchor map (`m_anchors[key] = cert`). -/
def mapInsert {Cert : Type} (m : List (Name × Cert)) (k : Name) (v : Cert) :
    List (Name × Cert) :=
  if m.any (fun p => p.1 = k) then
    m.map (fun p => if p.1 = k then (k, v) else p)
  else m ++ [(k, v)]

/-- The external collaborators of loading that live outside this translation
unit, consumed through narrow interfaces.  Modelled from the spec:
`FilterFactory::create` and `CheckerFactory::create` build a filter/checker
from a configuration subtree and may fail with a configuration error, and
`io::load<IdentityCertificate>` reads a certificate from a file (resolved
against the configuration file's directory) or from an inline base64 string,
returning nothing on failure. -/
structure Externals (F C Cert : Type) where
  filterCreate : ConfigSection → Except ConfError F
  checkerCreate : ConfigSection → String → Except ConfError C
  ioLoadFile : String → String → Option Cert
  ioLoadBase64 : String → Option Cert
  certName : Cert → Name

/-- The `rule.filter` loop of `onConfigRule` (lines 148-160): collect filter
entries until the first `checker` entry (`break`) or the end; any other key is
an error. -/
def collectFilters {F : Type} (create : ConfigSection → Except ConfError F)
    (ruleId : String) :
    List (String × ConfigSection) → Except ConfError (List F × List (String × ConfigSection))
  | [] => .ok ([], [])
  | (k, v) :: rest =>
    if iequals k "filter" = false then
      if iequals k "checker" then .ok ([], (k, v) :: rest)
      else .error (.expectRuleFilter ruleId)
    else
      match create v with
      | .error e => .error e
      | .ok f =>
        match collectFilters create ruleId rest with
        | .error e => .error e
        | .ok (fs, rem) => .ok (f :: fs, rem)

/-- The `rule.checker` loop of `onConfigRule` (lines 163-171): every remaining
entry must be a `checker`. -/
def collectCheckers {C : Type} (create : ConfigSection → String → Except ConfError C)
    (filename ruleId : String) :
    List (String × ConfigSection) → Except ConfError (List C)
  | [] => .ok []
  | (k, v) :: rest =>
    if iequals k "checker" = false then .error (.expectRuleChecker ruleId)
    else
      match create v filename with
      | .error e => .error e
      | .ok c =>
        match collectCheckers create filename ruleId rest with
        | .error e => .error e
        | .ok cs => .ok (c :: cs)

/-- Tail of `onConfigRule` after `rule.id` and `rule.for` are read: the filter
and checker loops, the empty-checker check, and the final `push_back` into the
data or interest rule list. -/
def onConfigRuleTail {F C Cert : Type} (ext : Externals F C Cert)
    (st : ValidatorState F C Cert) (filename ruleId : String) (isForData : Bool)
    (rest : List (String × ConfigSection)) :
    Except ConfError (ValidatorState F C Cert) :=
  match collectFilters ext.filterCreate ruleId rest with
  | .error e => .error e
  | .ok (filters, rem) =>
    match collectCheckers ext.checkerCreate filename ruleId rem with
    | .error e => .error e
    | .ok checkers =>
      if checkers.length = 0 then .error (.noChecker ruleId)
      else
        let rule : ConfRule F C := ⟨ruleId, filters, checkers⟩
        if isForData then .ok { st with dataRules := st.dataRules ++ [rule] }
        else .ok { st with interestRules := st.interestRules ++ [rule] }

/-- Model of `ValidatorConfig::onConfigRule`: parse one `rule` section.  All
throws happen before the final `push_back`, so a single section's effect is
all-or-nothing. -/
def onConfigRule {F C Cert : Type} (ext : Externals F C Cert)
    (st : ValidatorState F C Cert) (entries : List (String × ConfigSection))
    (filename : String) : Except ConfError (ValidatorState F C Cert) :=
  match entries with
  | [] => .error .expectRuleId
  | (k1, v1) :: rest1 =>
    if iequals k1 "id" = false then .error .expectRuleId
    else
      match rest1 with
      | [] => .error (.expectRuleFor v1.data)
      | (k2, v2) :: rest2 =>
        if iequals k2 "for" = false then .error (.expectRuleFor v1.data)
        else if iequals v2.data "data" then
          onConfigRuleTail ext st filename v1.data true rest2
        else if iequals v2.data "interest" then
          onConfigRuleTail ext st filename v1.data false rest2
        else .error (.unrecognizedFor v2.data v1.data)

/-- Model of `ValidatorConfig::onConfigTrustAnchor`: parse one `trust-anchor`
section and, on success, store the certificate under
`idCert->getName().getPrefix(-1)` — the certificate's name with only its last
component stripped. -/
def onConfigTrustAnchor {F C Cert : Type} (ext : Externals F C Cert)
    (st : ValidatorState F C Cert) (entries : List (String × ConfigSection))
    (filename : String) : Except ConfError (ValidatorState F C Cert) :=
  match entries with
  | [] => .error .expectAnchorType
  | (k1, v1) :: rest1 =>
    if iequals k1 "type" = false then .error .expectAnchorType
    else if iequals v1.data "file" then
      match rest1 with
      | [] => .error .expectAnchorFileName
      | (k2, v2) :: rest2 =>
        if iequals k2 "file-name" = false then .error .expectAnchorFileName
        else if rest2.isEmpty = false then .error .expectAnchorEnd
        else
          match ext.ioLoadFile v2.data filename with
          | some cert =>
            .ok { st with
                  anchors := mapInsert st.anchors (Name.getPrefixNeg (ext.certName cert) 1) cert }
          | none => .error (.cannotReadCertFile v2.data)
    else if iequals v1.data "base64" then
      match rest1 with
      | [] => .error .expectAnchorBase64
      | (k2, v2) :: rest2 =>
        if iequals k2 "base64-string" = false then .error .expectAnchorBase64
        else if rest2.isEmpty = false then .error .expectAnchorEnd
        else
          match ext.ioLoadBase64 v2.data with
          | some cert =>
            .ok { st with
                  anchors := mapInsert st.anchors (Name.getPrefixNeg (ext.certName cert) 1) cert }
          | none => .error .cannotDecodeBase64
    else .error (.unsupportedAnchorType v1.data)

/-- One iteration of the section loop of `load` (lines 91-113): dispatch on
the section name; an error leaves the state as it was at the start of this
iteration (the C++ throw happens before any mutation for this section). -/
def processSection {F C Cert : Type} (ext : Externals F C Cert)
    (st : ValidatorState F C Cert) (sectionName : String) (sec : ConfigSection)
    (filename : String) : ValidatorState F C Cert × Option ConfError :=
  if iequals sectionName "rule" then
    match onConfigRule ext st sec.children filename with
    | .ok st2 => (st2, none)
    | .error e => (st, some e)
  else if iequals sectionName "trust-anchor" then
    match onConfigTrustAnchor ext st sec.children filename with
    | .ok st2 => (st2, none)
    | .error e => (st, some e)
  else (st, some (.unrecognizedSection filename sectionName))

/-- The section loop of `load`, with explicit state passing: a thrown error
stops the loop but the state mutated by the earlier iterations remains. -/
def loadSections {F C Cert : Type} (ext : Externals F C Cert) (filename : String) :
    ValidatorState F C Cert → List (String × ConfigSection) →
    ValidatorState F C Cert × Option ConfError
  | st, [] => (st, none)
  | st, (nm, sec) :: rest =>
    match processSection ext st nm sec filename with
    | (st2, none) => loadSections ext filename st2 rest
    | (st2, some e) => (st2, some e)

/-- Model of `ValidatorConfig::load(const ConfigSection&, const std::string&)`:
reject an empty tree, then process the sections in order. -/
def load {F C Cert : Type} (ext : Externals F C Cert)
    (st : ValidatorState F C Cert) (tree : ConfigSection) (filename : String) :
    ValidatorState F C Cert × Option ConfError :=
  if tree.children.isEmpty then (st, some (.noData filename))
  else loadSections ext filename st tree.children

/-- A network face, as far as the constructor needs it (its io service handle,
used to build the default certificate cache). -/
structure Face where
  ioService : Nat
deriving DecidableEq

/-- A certificate cache: the TTL cache the constructor builds as a default, or
one supplied by the caller. -/
inductive CertificateCache where
  | ttl (ioService : Nat)
  | supplied (tag : Nat)
deriving DecidableEq

/-- The members of `ValidatorConfig` set by its constructor. -/
structure ValidatorConfigCtor where
  stepLimit : Int
  certificateCache : Option CertificateCache
deriving DecidableEq

/-- Model of the `ValidatorConfig` constructor (lines 19-31): throw if the face
is null; if the supplied certificate cache is null, replace it with a freshly
constructed `CertificateCacheTtl` on the face's io service. -/
def mkValidatorConfig (face : Option Face) (certificateCache : Option CertificateCache)
    (stepLimit : Int) : Except String ValidatorConfigCtor :=
  match face with
  | none => .error "Face is not set!"
  | some f =>
    match certificateCache with
    | none => .ok ⟨stepLimit, some (.ttl f.ioService)⟩
    | some c => .ok ⟨stepLimit, some c⟩

/-- If no rule in the list matches, the scan evaluates every rule's `match`,
runs no checkers, and leaves `checkResult` at its initialization `-1`. -/
theorem ruleScan_no_match {α : Type} (obj : α) (rules : List (Rule α))
    (h : ∀ r ∈ rules, r.matchFn obj = false) :
    ruleScan obj rules = ⟨false, -1, rules.map (fun r => r.id), []⟩ := by
  induction rules with
  | nil => rfl
  | cons r rs ih =>
    have hr : r.matchFn obj = false := h r (List.mem_cons_self r rs)
    simp [ruleScan, hr, ih (fun q hq => h q (List.mem_cons_of_mem r hq))]

/-- The scan stops at the first matching rule: its checkers are the only ones
run, and no later rule's `match` is even evaluated. -/
theorem ruleScan_first_match {α : Type} (obj : α) (pre post : List (Rule α)) (r : Rule α)
    (hpre : ∀ p ∈ pre, p.matchFn obj = false) (hr : r.matchFn obj = true) :
    ruleScan obj (pre ++ r :: post) =
      ⟨true, r.check obj, pre.map (fun p => p.id) ++ [r.id], [r.id]⟩ := by
  induction pre with
  | nil => simp [ruleScan, hr]
  | cons p tl ih =>
    have hp : p.matchFn obj = false := hpre p (List.mem_cons_self p tl)
    simp [ruleScan, hp, ih (fun q hq => hpre q (List.mem_cons_of_mem p hq))]

/-- The scan's `isMatched` flag agrees with `List.find?` on the rule list. -/
theorem ruleScan_isMatched {α : Type} (obj : α) (rules : List (Rule α)) :
    (ruleScan obj rules).isMatched = (firstMatchingRule rules obj).isSome := by
  induction rules with
  | nil => rfl
  | cons r rs ih =>
    cases hr : r.matchFn obj with
    | true => simp [ruleScan, hr, firstMatchingRule, List.find?_cons, hr]
    | false =>
      have hfind : firstMatchingRule (r :: rs) obj = firstMatchingRule rs obj := by
        simp [firstMatchingRule, List.find?_cons, hr]
      simp [ruleScan, hr, hfind, ih]

/-- The scan's `checkResult` is the verdict of the first matching rule. -/
theorem ruleScan_checkResult {α : Type} (obj : α) (rules : List (Rule α)) (r : Rule α)
    (h : firstMatchingRule rules obj = some r) :
    (ruleScan obj rules).checkResult = r.check obj := by
  induction rules with
  | nil => simp [firstMatchingRule] at h
  | cons q rs ih =>
    cases hq : q.matchFn obj with
    | true =>
      have hqr : q = r := by
        simpa [firstMatchingRule, List.find?_cons, hq] using h
      subst hqr
      simp [ruleScan, hq]
    | false =>
      have h2 : firstMatchingRule rs obj = some r := by
        simpa [firstMatchingRule, List.find?_cons, hq] using h
      simp [ruleScan, hq, ih h2]

/-- Negative indexing succeeds whenever the index is within the name. -/
theorem compAtNeg_isSome {n : Name} {k : Nat} (h1 : 1 ≤ k) (h2 : k ≤ n.length) :
    ∃ s, Name.compAtNeg n k = some s := by
  unfold Name.compAtNeg
  rw [if_pos ⟨h1, h2⟩]
  cases hg : n.get? (n.length - k) with
  | none =>
    rw [List.get?_eq_none] at hg
    omega
  | some s => exact ⟨s, rfl⟩

/-- The data match phase passes the scan's evaluation trace through unchanged. -/
theorem dataMatchPhase_evals (rules : List (Rule Data)) (d : Data) (sc : Int) :
    (dataMatchPhase rules d sc).matchEvals = (ruleScan d rules).matchEvals ∧
    (dataMatchPhase rules d sc).checkEvals = (ruleScan d rules).checkEvals := by
  rcases hs : ruleScan d rules with ⟨m, c, me, ce⟩
  simp only [dataMatchPhase, hs]
  constructor
  · split
    · rfl
    · split <;> rfl
  · split
    · rfl
    · split <;> rfl

/-- The interest match phase passes the scan's evaluation trace through
unchanged, in every branch. -/
theorem interestMatchPhase_evals (rules : List (Rule Interest)) (i : Interest) (sc : Int) :
    (interestMatchPhase rules i sc).matchEvals = (ruleScan i rules).matchEvals ∧
    (interestMatchPhase rules i sc).checkEvals = (ruleScan i rules).checkEvals := by
  rcases hs : ruleScan i rules with ⟨m, c, me, ce⟩
  simp only [interestMatchPhase, hs]
  constructor
  · split
    · rfl
    · split
      · split <;> rfl
      · rfl
  · split
    · rfl
    · split
      · split <;> rfl
      · rfl

/-- The match phase never produces the maximum-steps failure reason. -/
theorem dataMatchPhase_not_maxfail (rules : List (Rule Data)) (d : Data) (sc : Int) :
    (dataMatchPhase rules d sc).outcome ≠
      PolicyOutcome.validationFailed "Maximum steps of validation reached" := by
  rcases hs : ruleScan d rules with ⟨m, c, me, ce⟩
  simp only [dataMatchPhase, hs]
  split
  · simp
  · split <;> simp

/-- The interest match phase never produces the maximum-steps failure reason. -/
theorem interestMatchPhase_not_maxfail (rules : List (Rule Interest)) (i : Interest) (sc : Int) :
    (interestMatchPhase rules i sc).outcome ≠
      PolicyOutcome.validationFailed "Maximum steps of validation reached" := by
  rcases hs : ruleScan i rules with ⟨m, c, me, ce⟩
  simp only [interestMatchPhase, hs]
  split
  · simp
  · split
    · split <;> simp
    · simp

/-- A concrete Data packet used by witnesses. -/
def d0 : Data := ⟨["app", "obj"], 7⟩

/-- A concrete signed Interest (name carries the two signature components). -/
def i0 : Interest := ⟨["app", "cmd", "siginfo", "sigvalue"]⟩

/-- A data rule matching everything with the Continue verdict. -/
def dRuleYes : Rule Data := ⟨"d-yes", fun _ => true, fun _ => 0⟩

/-- A second data rule matching everything, with a non-Continue verdict. -/
def dRuleYes2 : Rule Data := ⟨"d-yes2", fun _ => true, fun _ => 1⟩

/-- A data rule matching nothing. -/
def dRuleNo : Rule Data := ⟨"d-no", fun _ => false, fun _ => 0⟩

/-- An interest rule matching everything with the Continue verdict. -/
def iRuleYes : Rule Interest := ⟨"i-yes", fun _ => true, fun _ => 0⟩

/-- A second interest rule matching everything, with a non-Continue verdict. -/
def iRuleYes2 : Rule Interest := ⟨"i-yes2", fun _ => true, fun _ => 2⟩

/-- An interest rule matching nothing. -/
def iRuleNo : Rule Interest := ⟨"i-no", fun _ => false, fun _ => 0⟩

/-- C1: when `checkPolicy` is invoked, for a Data or an Interest object, with a
step counter equal to the configured step limit, it immediately invokes the
failure callback with the maximum-validation-steps reason, and its
rule-evaluation trace is empty: no rule's `match` (hence none of its filters)
and no rule's checkers are evaluated before the failure. -/
theorem checkPolicy_step_limit_fails_first
    (stepLimit : Int) (rulesD : List (Rule Data)) (d : Data)
    (rulesI : List (Rule Interest)) (i : Interest) (stepCount : Int)
    (h : stepCount = stepLimit) :
    checkPolicyData stepLimit rulesD d stepCount =
      ⟨.validationFailed "Maximum steps of validation reached", [], []⟩ ∧
    checkPolicyInterest stepLimit rulesI i stepCount =
      ⟨.validationFailed "Maximum steps of validation reached", [], []⟩ := by
  subst h
  exact ⟨by simp [checkPolicyData], by simp [checkPolicyInterest]⟩

/-- Witness for C1 at a concrete limit, rule set and objects. -/
theorem checkPolicy_step_limit_fails_first_witness :
    checkPolicyData 3 [dRuleYes] d0 3 =
      ⟨.validationFailed "Maximum steps of validation reached", [], []⟩ ∧
    checkPolicyInterest 3 [iRuleYes] i0 3 =
      ⟨.validationFailed "Maximum steps of validation reached", [], []⟩ :=
  checkPolicy_step_limit_fails_first 3 [dRuleYes] d0 [iRuleYes] i0 3 rfl

/-- C8: the step-limit guard compares counter and limit for equality only, so
any step counter strictly greater than the configured limit does not trigger
the maximum-validation-steps failure: `checkPolicy` proceeds to the
rule-matching phase; in particular a negative configured limit is never hit by
the non-negative counters validation uses. -/
theorem checkPolicy_guard_is_equality_only
    (stepLimit stepCount : Int) (rulesD : List (Rule Data)) (d : Data)
    (rulesI : List (Rule Interest)) (i : Interest)
    (h : stepLimit < stepCount) :
    checkPolicyData stepLimit rulesD d stepCount = dataMatchPhase rulesD d stepCount ∧
    (checkPolicyData stepLimit rulesD d stepCount).outcome ≠
      .validationFailed "Maximum steps of validation reached" ∧
    checkPolicyInterest stepLimit rulesI i stepCount = interestMatchPhase rulesI i stepCount ∧
    (checkPolicyInterest stepLimit rulesI i stepCount).outcome ≠
      .validationFailed "Maximum steps of validation reached" := by
  have hne : ¬ stepLimit = stepCount := by omega
  refine ⟨by simp [checkPolicyData, hne], ?_, by simp [checkPolicyInterest, hne], ?_⟩
  · simpa [checkPolicyData, hne] using dataMatchPhase_not_maxfail rulesD d stepCount
  · simpa [checkPolicyInterest, hne] using interestMatchPhase_not_maxfail rulesI i stepCount

/-- Witness for C8: a negative limit with counter 0 proceeds to rule matching. -/
theorem checkPolicy_guard_is_equality_only_witness :
    checkPolicyData (-1) [dRuleYes] d0 0 = dataMatchPhase [dRuleYes] d0 0 ∧
    (checkPolicyData (-1) [dRuleYes] d0 0).outcome ≠
      .validationFailed "Maximum steps of validation reached" ∧
    checkPolicyInterest (-1) [iRuleYes] i0 0 = interestMatchPhase [iRuleYes] i0 0 ∧
    (checkPolicyInterest (-1) [iRuleYes] i0 0).outcome ≠
      .validationFailed "Maximum steps of validation reached" :=
  checkPolicy_guard_is_equality_only (-1) 0 [dRuleYes] d0 [iRuleYes] i0 (by omega)

/-- C5: below the step limit, if no rule of the object's kind matches, the
failure callback is invoked with the "No rule matched!" reason, no checker runs
(`checkEvals` is empty), and nothing proceeds to chain validation. -/
theorem checkPolicy_no_match_fails
    (stepLimit stepCount : Int) (rulesD : List (Rule Data)) (d : Data)
    (rulesI : List (Rule Interest)) (i : Interest)
    (hsc : stepCount < stepLimit)
    (hd : ∀ r ∈ rulesD, r.matchFn d = false)
    (hi : ∀ r ∈ rulesI, r.matchFn i = false) :
    checkPolicyData stepLimit rulesD d stepCount =
      ⟨.validationFailed "No rule matched!", rulesD.map (fun r => r.id), []⟩ ∧
    checkPolicyInterest stepLimit rulesI i stepCount =
      ⟨.validationFailed "No rule matched!", rulesI.map (fun r => r.id), []⟩ := by
  have hne : ¬ stepLimit = stepCount := by omega
  constructor
  · simp [checkPolicyData, hne, dataMatchPhase, ruleScan_no_match d rulesD hd]
  · simp [checkPolicyInterest, hne, interestMatchPhase, ruleScan_no_match i rulesI hi]

/-- Witness for C5 at a concrete non-matching rule set. -/
theorem checkPolicy_no_match_fails_witness :
    checkPolicyData 5 [dRuleNo] d0 0 =
      ⟨.validationFailed "No rule matched!", ["d-no"], []⟩ ∧
    checkPolicyInterest 5 [iRuleNo] i0 0 =
      ⟨.validationFailed "No rule matched!", ["i-no"], []⟩ :=
  checkPolicy_no_match_fails 5 0 [dRuleNo] d0 [iRuleNo] i0 (by omega)
    (by intro r hr; simp at hr; subst hr; rfl)
    (by intro r hr; simp at hr; subst hr; rfl)

/-- C4: first-match-wins.  With the rule list split as `pre ++ r :: post`,
where nothing in `pre` matches, `r` matches, and at least one later rule also
matches, only `r`'s checkers run (`checkEvals = [r.id]`) and the scan stops at
`r`: the `match` trace covers exactly `pre` and `r`, so no later rule is even
tested, let alone has its checkers evaluated. -/
theorem checkPolicy_first_match_wins
    (stepLimit stepCount : Int)
    (preD postD : List (Rule Data)) (rD : Rule Data) (d : Data)
    (preI postI : List (Rule Interest)) (rI : Rule Interest) (i : Interest)
    (hguard : ¬ stepLimit = stepCount)
    (hpreD : ∀ p ∈ preD, p.matchFn d = false) (hrD : rD.matchFn d = true)
    (hpostD : ∃ q ∈ postD, q.matchFn d = true)
    (hpreI : ∀ p ∈ preI, p.matchFn i = false) (hrI : rI.matchFn i = true)
    (hpostI : ∃ q ∈ postI, q.matchFn i = true) :
    (checkPolicyData stepLimit (preD ++ rD :: postD) d stepCount).checkEvals = [rD.id] ∧
    (checkPolicyData stepLimit (preD ++ rD :: postD) d stepCount).matchEvals =
      preD.map (fun p => p.id) ++ [rD.id] ∧
    (checkPolicyInterest stepLimit (preI ++ rI :: postI) i stepCount).checkEvals = [rI.id] ∧
    (checkPolicyInterest stepLimit (preI ++ rI :: postI) i stepCount).matchEvals =
      preI.map (fun p => p.id) ++ [rI.id] := by
  have hD := ruleScan_first_match d preD postD rD hpreD hrD
  have hI := ruleScan_first_match i preI postI rI hpreI hrI
  have eD := dataMatchPhase_evals (preD ++ rD :: postD) d stepCount
  have eI := interestMatchPhase_evals (preI ++ rI :: postI) i stepCount
  refine ⟨?_, ?_, ?_, ?_⟩ <;>
    simp [checkPolicyData, checkPolicyInterest, hguard, eD.1, eD.2, eI.1, eI.2, hD, hI]

/-- Witness for C4: two all-matching rules of each kind; only the first's
checkers run. -/
theorem checkPolicy_first_match_wins_witness :
    (checkPolicyData 9 ([] ++ dRuleYes :: [dRuleYes2]) d0 0).checkEvals = ["d-yes"] ∧
    (checkPolicyData 9 ([] ++ dRuleYes :: [dRuleYes2]) d0 0).matchEvals = ["d-yes"] ∧
    (checkPolicyInterest 9 ([] ++ iRuleYes :: [iRuleYes2]) i0 0).checkEvals = ["i-yes"] ∧
    (checkPolicyInterest 9 ([] ++ iRuleYes :: [iRuleYes2]) i0 0).matchEvals = ["i-yes"] :=
  checkPolicy_first_match_wins 9 0 [] [dRuleYes2] dRuleYes d0 [] [iRuleYes2] iRuleYes i0
    (by omega) (by intro p hp; simp at hp) rfl ⟨dRuleYes2, by simp, rfl⟩
    (by intro p hp; simp at hp) rfl ⟨iRuleYes2, by simp, rfl⟩

/-- C6: chain validation runs exactly on Continue.  Past the step-limit guard
(and, for an Interest, under the two-component name precondition of the
signature reconstruction), `checkPolicy` hands the object to `checkSignature`
if and only if some rule matched and the first matching rule's checker verdict
is the Continue encoding `0`; on any non-zero verdict of a matched rule the
outcome is `checkerHandled`: `checkPolicy` performs no callback of its own. -/
theorem checkSignature_iff_continue
    (stepLimit stepCount : Int) (rulesD : List (Rule Data)) (d : Data)
    (rulesI : List (Rule Interest)) (i : Interest)
    (hguard : ¬ stepLimit = stepCount) (hlen : 2 ≤ i.name.length) :
    ((checkPolicyData stepLimit rulesD d stepCount).outcome.isSignatureCheck = true ↔
      ∃ r, firstMatchingRule rulesD d = some r ∧ r.check d = 0) ∧
    (∀ r, firstMatchingRule rulesD d = some r → ¬ r.check d = 0 →
      (checkPolicyData stepLimit rulesD d stepCount).outcome =
        .checkerHandled (r.check d)) ∧
    ((checkPolicyInterest stepLimit rulesI i stepCount).outcome.isSignatureCheck = true ↔
      ∃ r, firstMatchingRule rulesI i = some r ∧ r.check i = 0) ∧
    (∀ r, firstMatchingRule rulesI i = some r → ¬ r.check i = 0 →
      (checkPolicyInterest stepLimit rulesI i stepCount).outcome =
        .checkerHandled (r.check i)) := by
  obtain ⟨s2, h2⟩ := compAtNeg_isSome (n := i.name) (k := 2) (by omega) hlen
  obtain ⟨s1, h1⟩ := compAtNeg_isSome (n := i.name) (k := 1) (by omega) (by omega)
  have hmD := ruleScan_isMatched d rulesD
  have hmI := ruleScan_isMatched i rulesI
  refine ⟨?_, ?_, ?_, ?_⟩
  · constructor
    · intro h
      cases hfind : firstMatchingRule rulesD d with
      | none =>
        rw [hfind] at hmD
        simp [checkPolicyData, hguard, dataMatchPhase, hmD,
          PolicyOutcome.isSignatureCheck] at h
      | some r =>
        refine ⟨r, rfl, ?_⟩
        rw [hfind] at hmD
        have hcr := ruleScan_checkResult d rulesD r hfind
        by_contra hnz
        simp [checkPolicyData, hguard, dataMatchPhase, hmD, hcr, hnz,
          PolicyOutcome.isSignatureCheck] at h
    · rintro ⟨r, hfind, hz⟩
      rw [hfind] at hmD
      have hcr := ruleScan_checkResult d rulesD r hfind
      simp [checkPolicyData, hguard, dataMatchPhase, hmD, hcr, hz,
        PolicyOutcome.isSignatureCheck]
  · intro r hfind hnz
    rw [hfind] at hmD
    have hcr := ruleScan_checkResult d rulesD r hfind
    simp [checkPolicyData, hguard, dataMatchPhase, hmD, hcr, hnz]
  · constructor
    · intro h
      cases hfind : firstMatchingRule rulesI i with
      | none =>
        rw [hfind] at hmI
        simp [checkPolicyInterest, hguard, interestMatchPhase, hmI,
          PolicyOutcome.isSignatureCheck] at h
      | some r =>
        refine ⟨r, rfl, ?_⟩
        rw [hfind] at hmI
        have hcr := ruleScan_checkResult i rulesI r hfind
        by_contra hnz
        simp [checkPolicyInterest, hguard, interestMatchPhase, hmI, hcr, hnz,
          PolicyOutcome.isSignatureCheck] at h
    · rintro ⟨r, hfind, hz⟩
      rw [hfind] at hmI
      have hcr := ruleScan_checkResult i rulesI r hfind
      simp [checkPolicyInterest, hguard, interestMatchPhase, hmI, hcr, hz, h1, h2,
        PolicyOutcome.isSignatureCheck]
  · intro r hfind hnz
    rw [hfind] at hmI
    have hcr := ruleScan_checkResult i rulesI r hfind
    simp [checkPolicyInterest, hguard, interestMatchPhase, hmI, hcr, hnz]

/-- Witness for C6 at a concrete matching Continue rule. -/
theorem checkSignature_iff_continue_witness :
    (checkPolicyData 9 [dRuleYes] d0 0).outcome.isSignatureCheck = true ↔
      ∃ r, firstMatchingRule [dRuleYes] d0 = some r ∧ r.check d0 = 0 :=
  (checkSignature_iff_continue 9 0 [dRuleYes] d0 [iRuleYes] i0
    (by omega) (by decide)).1

/-- An interest rule used by the C9 counterexample half: matches everything
and always returns the Continue verdict. -/
def contRule : Rule Interest := ⟨"any-continue", fun _ => true, fun _ => 0⟩

/-- C9: the Continue branch of `checkPolicy(Interest, ...)` indexes the name's
last two components with no guard, so a name of at least two components is an
unchecked precondition: under it the out-of-range branch is unreachable, and
with a shorter name a matched Continue-verdict rule does reach it. -/
theorem interest_continue_needs_two_components :
    (∀ (stepLimit stepCount : Int) (rules : List (Rule Interest)) (i : Interest),
        2 ≤ i.name.length →
        (checkPolicyInterest stepLimit rules i stepCount).outcome ≠ .nameRangeError) ∧
    (checkPolicyInterest 5 [contRule] ⟨["short"]⟩ 0).outcome = .nameRangeError := by
  constructor
  · intro stepLimit stepCount rules i hlen
    obtain ⟨s2, h2⟩ := compAtNeg_isSome (n := i.name) (k := 2) (by omega) hlen
    obtain ⟨s1, h1⟩ := compAtNeg_isSome (n := i.name) (k := 1) (by omega) (by omega)
    rcases hs : ruleScan i rules with ⟨m, c, me, ce⟩
    unfold checkPolicyInterest
    split
    · simp
    · simp only [interestMatchPhase, hs, h1, h2]
      split
      · simp
      · split
        · simp
        · simp
  · rfl

/-- Witness for C9 on a two-component interest name. -/
theorem interest_continue_needs_two_components_witness :
    (checkPolicyInterest 5 [] ⟨["a", "b"]⟩ 0).outcome ≠ .nameRangeError :=
  interest_continue_needs_two_components.1 5 0 [] ⟨["a", "b"]⟩ (by decide)

/-- C10: construction fails on a null face, and on success the certificate
cache member is non-null: a null cache argument is replaced by a freshly
constructed TTL cache on the face's io service. -/
theorem ctor_certificate_cache_nonnull
    (face : Option Face) (cache : Option CertificateCache) (stepLimit : Int) :
    (face = none → mkValidatorConfig face cache stepLimit = .error "Face is not set!") ∧
    (∀ st, mkValidatorConfig face cache stepLimit = .ok st →
      st.certificateCache.isSome = true) ∧
    (∀ f, face = some f → cache = none →
      mkValidatorConfig face cache stepLimit = .ok ⟨stepLimit, some (.ttl f.ioService)⟩) := by
  refine ⟨?_, ?_, ?_⟩
  · intro h
    subst h
    rfl
  · intro st h
    cases face with
    | none => simp [mkValidatorConfig] at h
    | some f =>
      cases cache with
      | none =>
        simp only [mkValidatorConfig, Except.ok.injEq] at h
        rw [← h]
        rfl
      | some c =>
        simp only [mkValidatorConfig, Except.ok.injEq] at h
        rw [← h]
        rfl
  · intro f hf hc
    subst hf
    subst hc
    rfl

/-- Witness for C10: a present face with a null cache yields a TTL cache. -/
theorem ctor_certificate_cache_nonnull_witness :
    mkValidatorConfig (some ⟨4⟩) none 2 = .ok ⟨2, some (.ttl 4)⟩ :=
  (ctor_certificate_cache_nonnull (some ⟨4⟩) none 2).2.2 ⟨4⟩ rfl rfl

/-- A certificate as the trust-anchor code sees it.  Modelled from the spec:
`IdentityCertificate` is external to this translation unit; all
`onConfigTrustAnchor` uses of it is its name (`getName()`), the certificate's
own (versioned) packet name. -/
structure IdentityCertificate where
  name : Name
deriving DecidableEq

/-- The empty validator state (no rules, no anchors). -/
def emptyState : ValidatorState Unit Unit IdentityCertificate := ⟨[], [], []⟩

/-- Concrete externals whose factories always succeed and whose certificate
loaders find nothing. -/
def extU : Externals Unit Unit IdentityCertificate :=
  ⟨fun _ => .ok (), fun _ _ => .ok (), fun _ _ => none, fun _ => none,
    fun c => c.name⟩

/-- The certificate of the C3 counterexample: its name is the subject name
`/a/b/KEY/c` quoted by the claim. -/
def c3Cert : IdentityCertificate := ⟨["a", "b", "KEY", "c"]⟩

/-- Concrete externals whose file loader always yields `c3Cert`. -/
def extCert : Externals Unit Unit IdentityCertificate :=
  ⟨fun _ => .ok (), fun _ _ => .ok (), fun _ _ => some c3Cert, fun _ => none,
    fun c => c.name⟩

/-- A well-formed rule section body: one id, one for (data), one checker. -/
def goodEntries : List (String × ConfigSection) :=
  [("id", ConfigSection.mk "r1" []), ("for", ConfigSection.mk "data" []),
    ("checker", ConfigSection.mk "" [])]

/-- The well-formed rule section wrapping `goodEntries`. -/
def goodRuleSec : ConfigSection := ConfigSection.mk "" goodEntries

/-- The state after loading exactly the `goodEntries` rule. -/
def stGood : ValidatorState Unit Unit IdentityCertificate :=
  ⟨[⟨"r1", [], [()]⟩], [], []⟩

/-- A `processSection` call that reports an error leaves the state exactly as
it received it: within one section, every throw precedes every mutation. -/
theorem processSection_error_keeps_state {F C Cert : Type} (ext : Externals F C Cert)
    (st : ValidatorState F C Cert) (nm : String) (sec : ConfigSection) (fn : String)
    (st2 : ValidatorState F C Cert) (e : ConfError)
    (h : processSection ext st nm sec fn = (st2, some e)) : st2 = st := by
  unfold processSection at h
  split at h
  · split at h
    · simp at h
    · simp at h
      exact h.1.symm
  · split at h
    · split at h
      · simp at h
      · simp at h
        exact h.1.symm
    · simp at h
      exact h.1.symm

/-- C2 (amended): a malformed section makes `load` stop with a configuration
error, with no partial effect from the malformed section itself — but the
rules and anchors built from the well-formed sections that precede it in the
same file remain applied: the final state is exactly the state after the good
prefix, not the pre-load state. -/
theorem load_error_retains_earlier_sections {F C Cert : Type} (ext : Externals F C Cert)
    (fn : String) (st st1 : ValidatorState F C Cert)
    (ss1 : List (String × ConfigSection)) (nm : String) (sec : ConfigSection)
    (ss2 : List (String × ConfigSection)) (e : ConfError)
    (h1 : loadSections ext fn st ss1 = (st1, none))
    (h2 : (processSection ext st1 nm sec fn).2 = some e) :
    loadSections ext fn st (ss1 ++ (nm, sec) :: ss2) = (st1, some e) := by
  induction ss1 generalizing st with
  | nil =>
    have hst : st = st1 := by simpa [loadSections] using h1
    subst hst
    rcases hps : processSection ext st nm sec fn with ⟨stx, oe⟩
    rw [hps] at h2
    simp only at h2
    subst h2
    have hx : stx = st := processSection_error_keeps_state ext st nm sec fn stx e hps
    subst hx
    simp [loadSections, hps]
  | cons hd tl ih =>
    rcases hd with ⟨n0, s0⟩
    rcases hps : processSection ext st n0 s0 fn with ⟨stx, oe⟩
    cases oe with
    | none =>
      have h1x : loadSections ext fn stx tl = (st1, none) := by
        simpa [loadSections, hps] using h1
      simpa [loadSections, hps] using ih stx h1x
    | some e0 =>
      exfalso
      simp [loadSections, hps] at h1

/-- Witness for C2's amended theorem: a good rule section followed by an
unknown section keeps the rule and reports the unknown-section error. -/
theorem load_error_retains_earlier_sections_witness :
    loadSections extU "conf" emptyState
        ([("rule", goodRuleSec)] ++ ("bogus", ConfigSection.mk "" []) :: []) =
      (stGood, some (.unrecognizedSection "conf" "bogus")) :=
  load_error_retains_earlier_sections extU "conf" emptyState stGood
    [("rule", goodRuleSec)] "bogus" (ConfigSection.mk "" []) []
    (.unrecognizedSection "conf" "bogus") rfl rfl

/-- C2 counterexample: loading a tree whose first section is a well-formed
rule and whose second section is unrecognized raises a configuration error,
yet the rule from the well-formed first section is retained in the rule set —
the failed load is not free of partial application. -/
theorem load_not_atomic_counterexample :
    (load extU emptyState
        (ConfigSection.mk "" [("rule", goodRuleSec), ("bogus", ConfigSection.mk "" [])])
        "conf").2 = some (.unrecognizedSection "conf" "bogus") ∧
    (load extU emptyState
        (ConfigSection.mk "" [("rule", goodRuleSec), ("bogus", ConfigSection.mk "" [])])
        "conf").1.dataRules = [⟨"r1", [], [()]⟩] :=
  ⟨rfl, rfl⟩

/-- C3 (amended): a `type file` trust-anchor section whose certificate loads
successfully stores the certificate under `getName().getPrefix(-1)` — the
certificate's name with exactly its last component stripped (`dropLast`), not
under the identity prefix of the subject name. -/
theorem trust_anchor_key_strips_last_component {F C Cert : Type}
    (ext : Externals F C Cert) (st : ValidatorState F C Cert)
    (fileVal : ConfigSection) (fn : String) (cert : Cert)
    (hload : ext.ioLoadFile fileVal.data fn = some cert) :
    onConfigTrustAnchor ext st
        [("type", ConfigSection.mk "file" []), ("file-name", fileVal)] fn =
      .ok { st with
            anchors := mapInsert st.anchors (Name.getPrefixNeg (ext.certName cert) 1) cert } ∧
    Name.getPrefixNeg (ext.certName cert) 1 = (ext.certName cert).dropLast := by
  constructor
  · have e1 : iequals "type" "type" = true := rfl
    have e2 : iequals "file" "file" = true := rfl
    have e3 : iequals "file-name" "file-name" = true := rfl
    rcases fileVal with ⟨dv, dch⟩
    simp only [ConfigSection.data] at hload
    simp [onConfigTrustAnchor, ConfigSection.data, e1, e2, e3, hload]
  · rw [Name.getPrefixNeg, List.dropLast_eq_take]

/-- Witness for C3's amended theorem at the concrete `/a/b/KEY/c` certificate. -/
theorem trust_anchor_key_strips_last_component_witness :
    onConfigTrustAnchor extCert emptyState
        [("type", ConfigSection.mk "file" []),
          ("file-name", ConfigSection.mk "cert" [])] "conf" =
      .ok { emptyState with
            anchors := mapInsert emptyState.anchors
              (Name.getPrefixNeg (extCert.certName c3Cert) 1) c3Cert } ∧
    Name.getPrefixNeg (extCert.certName c3Cert) 1 = (extCert.certName c3Cert).dropLast :=
  trust_anchor_key_strips_last_component extCert emptyState
    (ConfigSection.mk "cert" []) "conf" c3Cert rfl

/-- C3 counterexample: a certificate whose name is the claim's subject name
`/a/b/KEY/c` is stored under `/a/b/KEY` — exactly the certificate name with
its last component stripped — and not under the identity prefix `/a/b`. -/
theorem trust_anchor_key_counterexample :
    onConfigTrustAnchor extCert emptyState
        [("type", ConfigSection.mk "file" []),
          ("file-name", ConfigSection.mk "cert" [])] "conf" =
      .ok ⟨[], [], [(["a", "b", "KEY"], c3Cert)]⟩ ∧
    c3Cert.name = ["a", "b", "KEY", "c"] ∧
    (["a", "b", "KEY"] : Name) ≠ ["a", "b"] :=
  ⟨rfl, rfl, by decide⟩

/-- Head of the remainder after the filter entries is a `checker` entry, or
the remainder is empty: exactly the condition under which the filter loop
exits without throwing. -/
def headIsCheckerOrNone : List (String × ConfigSection) → Bool
  | [] => true
  | (k, _) :: _ => iequals k "checker"

/-- Follows the spec's words (§4.4) for the tail of a rule section after `id`
and `for`: zero or more `filter` entries, then one or more `checker` entries,
with nothing after. -/
def ruleTailWellFormed (rest : List (String × ConfigSection)) : Bool :=
  let rem := rest.dropWhile (fun e => iequals e.1 "filter")
  !rem.isEmpty && rem.all (fun e => iequals e.1 "checker")

/-- Follows the spec's words (§4.4): a rule section must be exactly one `id`,
then exactly one `for` whose value is `data` or `interest` case-insensitively,
then zero or more `filter` entries, then one or more `checker` entries, with
no trailing entries. -/
def ruleSectionWellFormed : List (String × ConfigSection) → Bool
  | (k1, _) :: (k2, v2) :: rest =>
    iequals k1 "id" && iequals k2 "for" &&
      (iequals v2.data "data" || iequals v2.data "interest") &&
      ruleTailWellFormed rest
  | _ => false

/-- The value of the first `id` entry of a section, wherever it appears. -/
def declaredRuleId (entries : List (String × ConfigSection)) : Option String :=
  (entries.find? (fun e => iequals e.1 "id")).map (fun e => e.2.data)

/-- When the dropped-filters remainder starts with a `checker` (or is empty),
the filter loop succeeds and returns exactly that remainder. -/
theorem collectFilters_ok {F : Type} (create : ConfigSection → Except ConfError F)
    (hf : ∀ s, ∃ f, create s = .ok f) (ruleId : String)
    (rest : List (String × ConfigSection))
    (h : headIsCheckerOrNone (rest.dropWhile (fun e => iequals e.1 "filter")) = true) :
    ∃ fs, collectFilters create ruleId rest =
      .ok (fs, rest.dropWhile (fun e => iequals e.1 "filter")) := by
  induction rest with
  | nil => exact ⟨[], rfl⟩
  | cons hd tl ih =>
    rcases hd with ⟨k, v⟩
    cases hk : iequals k "filter" with
    | true =>
      have hdrop : ((k, v) :: tl).dropWhile (fun e => iequals e.1 "filter") =
          tl.dropWhile (fun e => iequals e.1 "filter") := by
        simp [List.dropWhile_cons, hk]
      rw [hdrop] at h
      obtain ⟨f, hcf⟩ := hf v
      obtain ⟨fs, hrec⟩ := ih h
      refine ⟨f :: fs, ?_⟩
      rw [hdrop]
      simp [collectFilters, hk, hcf, hrec]
    | false =>
      have hdrop : ((k, v) :: tl).dropWhile (fun e => iequals e.1 "filter") =
          (k, v) :: tl := by
        simp [List.dropWhile_cons, hk]
      rw [hdrop] at h
      have hck : iequals k "checker" = true := by
        simpa [headIsCheckerOrNone] using h
      refine ⟨[], ?_⟩
      rw [hdrop]
      simp [collectFilters, hk, hck]

/-- When the dropped-filters remainder starts with an entry that is neither
`filter` nor `checker`, the filter loop throws the filter error. -/
theorem collectFilters_err {F : Type} (create : ConfigSection → Except ConfError F)
    (hf : ∀ s, ∃ f, create s = .ok f) (ruleId : String)
    (rest : List (String × ConfigSection))
    (h : headIsCheckerOrNone (rest.dropWhile (fun e => iequals e.1 "filter")) = false) :
    collectFilters create ruleId rest = .error (.expectRuleFilter ruleId) := by
  induction rest with
  | nil => simp [headIsCheckerOrNone] at h
  | cons hd tl ih =>
    rcases hd with ⟨k, v⟩
    cases hk : iequals k "filter" with
    | true =>
      have hdrop : ((k, v) :: tl).dropWhile (fun e => iequals e.1 "filter") =
          tl.dropWhile (fun e => iequals e.1 "filter") := by
        simp [List.dropWhile_cons, hk]
      rw [hdrop] at h
      obtain ⟨f, hcf⟩ := hf v
      simp [collectFilters, hk, hcf, ih h]
    | false =>
      have hdrop : ((k, v) :: tl).dropWhile (fun e => iequals e.1 "filter") =
          (k, v) :: tl := by
        simp [List.dropWhile_cons, hk]
      rw [hdrop] at h
      have hck : iequals k "checker" = false := by
        simpa [headIsCheckerOrNone] using h
      simp [collectFilters, hk, hck]

/-- When every remaining entry is a `checker`, the checker loop succeeds with
one checker per entry. -/
theorem collectCheckers_ok {C : Type} (create : ConfigSection → String → Except ConfError C)
    (hc : ∀ s f2, ∃ c, create s f2 = .ok c) (filename ruleId : String)
    (rem : List (String × ConfigSection))
    (h : rem.all (fun e => iequals e.1 "checker") = true) :
    ∃ cs, collectCheckers create filename ruleId rem = .ok cs ∧ cs.length = rem.length := by
  induction rem with
  | nil => exact ⟨[], rfl, rfl⟩
  | cons hd tl ih =>
    rcases hd with ⟨k, v⟩
    rw [List.all_cons] at h
    have hk : iequals k "checker" = true := by
      cases hx : iequals k "checker" <;> simp [hx] at h ⊢
    have htl : tl.all (fun e => iequals e.1 "checker") = true := by
      simpa [hk] using h
    obtain ⟨c, hcc⟩ := hc v filename
    obtain ⟨cs, hrec, hlen⟩ := ih htl
    exact ⟨c :: cs, by simp [collectCheckers, hk, hcc, hrec], by simp [hlen]⟩

/-- When some remaining entry is not a `checker`, the checker loop throws the
checker error. -/
theorem collectCheckers_err {C : Type} (create : ConfigSection → String → Except ConfError C)
    (hc : ∀ s f2, ∃ c, create s f2 = .ok c) (filename ruleId : String)
    (rem : List (String × ConfigSection))
    (h : rem.all (fun e => iequals e.1 "checker") = false) :
    collectCheckers create filename ruleId rem = .error (.expectRuleChecker ruleId) := by
  induction rem with
  | nil => simp at h
  | cons hd tl ih =>
    rcases hd with ⟨k, v⟩
    cases hk : iequals k "checker" with
    | false => simp [collectCheckers, hk]
    | true =>
      have htl : tl.all (fun e => iequals e.1 "checker") = false := by
        simpa [List.all_cons, hk] using h
      obtain ⟨c, hcc⟩ := hc v filename
      simp [collectCheckers, hk, hcc, ih htl]

/-- The tail of `onConfigRule` succeeds exactly on well-formed tails, given
factories that succeed. -/
theorem onConfigRuleTail_ok_iff {F C Cert : Type} (ext : Externals F C Cert)
    (st : ValidatorState F C Cert) (fn ruleId : String) (b : Bool)
    (hf : ∀ s, ∃ f, ext.filterCreate s = .ok f)
    (hc : ∀ s f2, ∃ c, ext.checkerCreate s f2 = .ok c)
    (rest : List (String × ConfigSection)) :
    isOkE (onConfigRuleTail ext st fn ruleId b rest) = ruleTailWellFormed rest := by
  cases hh : headIsCheckerOrNone (rest.dropWhile (fun e => iequals e.1 "filter")) with
  | false =>
    have hall : (rest.dropWhile (fun e => iequals e.1 "filter")).all
        (fun e => iequals e.1 "checker") = false := by
      cases hrem : rest.dropWhile (fun e => iequals e.1 "filter") with
      | nil => rw [hrem] at hh; simp [headIsCheckerOrNone] at hh
      | cons hd es =>
        rcases hd with ⟨k, v⟩
        rw [hrem] at hh
        simp only [headIsCheckerOrNone] at hh
        simp [List.all_cons, hh]
    simp [onConfigRuleTail, collectFilters_err ext.filterCreate hf ruleId rest hh,
      isOkE, ruleTailWellFormed, hall]
  | true =>
    obtain ⟨fs, hcf⟩ := collectFilters_ok ext.filterCreate hf ruleId rest hh
    cases hall : (rest.dropWhile (fun e => iequals e.1 "filter")).all
        (fun e => iequals e.1 "checker") with
    | false =>
      simp [onConfigRuleTail, hcf,
        collectCheckers_err ext.checkerCreate hc fn ruleId _ hall,
        isOkE, ruleTailWellFormed, hall]
    | true =>
      obtain ⟨cs, hcc, hlen⟩ := collectCheckers_ok ext.checkerCreate hc fn ruleId _ hall
      cases hrem : rest.dropWhile (fun e => iequals e.1 "filter") with
      | nil =>
        rw [hrem] at hcf hcc hlen
        have hnil : cs = [] := List.length_eq_zero.mp (by simpa using hlen)
        subst hnil
        simp [onConfigRuleTail, hcf, hcc, isOkE, ruleTailWellFormed, hrem]
      | cons hd es =>
        rw [hrem] at hcf hcc hlen
        rw [hrem] at hall
        have hne : ¬ cs.length = 0 := by simp [hlen]
        cases b <;>
          simp [onConfigRuleTail, hcf, hcc, hne, isOkE, ruleTailWellFormed, hrem, hall]

/-- Every error the tail of `onConfigRule` can throw names the rule id, given
factories that succeed. -/
theorem onConfigRuleTail_error_names {F C Cert : Type} (ext : Externals F C Cert)
    (st : ValidatorState F C Cert) (fn ruleId : String) (b : Bool)
    (hf : ∀ s, ∃ f, ext.filterCreate s = .ok f)
    (hc : ∀ s f2, ∃ c, ext.checkerCreate s f2 = .ok c)
    (rest : List (String × ConfigSection)) (e : ConfError)
    (h : onConfigRuleTail ext st fn ruleId b rest = .error e) :
    e.namesRuleId = some ruleId := by
  cases hh : headIsCheckerOrNone (rest.dropWhile (fun e => iequals e.1 "filter")) with
  | false =>
    rw [onConfigRuleTail, collectFilters_err ext.filterCreate hf ruleId rest hh] at h
    simp only [Except.error.injEq] at h
    rw [← h]
    rfl
  | true =>
    obtain ⟨fs, hcf⟩ := collectFilters_ok ext.filterCreate hf ruleId rest hh
    cases hall : (rest.dropWhile (fun e => iequals e.1 "filter")).all
        (fun e => iequals e.1 "checker") with
    | false =>
      rw [onConfigRuleTail, hcf] at h
      simp only [collectCheckers_err ext.checkerCreate hc fn ruleId _ hall,
        Except.error.injEq] at h
      rw [← h]
      rfl
    | true =>
      obtain ⟨cs, hcc, hlen⟩ := collectCheckers_ok ext.checkerCreate hc fn ruleId _ hall
      cases hrem : rest.dropWhile (fun e => iequals e.1 "filter") with
      | nil =>
        rw [hrem] at hcf hcc hlen
        have hnil : cs = [] := List.length_eq_zero.mp (by simpa using hlen)
        subst hnil
        rw [onConfigRuleTail, hcf] at h
        simp [hcc] at h
        subst h
        rfl
      | cons hd es =>
        rw [hrem] at hcf hcc hlen
        have hne : ¬ cs.length = 0 := by simp [hlen]
        rw [onConfigRuleTail, hcf] at h
        simp only [hcc, if_neg hne] at h
        cases b <;> simp at h

/-- C7 (amended): given filter and checker factories that succeed, a rule
section loads successfully iff it is exactly one `id`, then exactly one `for`
valued `data` or `interest` case-insensitively, then zero or more `filter`
entries, then one or more `checker` entries with nothing after; and whenever
the section begins with its `id` entry, any error raised for it names that
rule id.  (A section whose first entry is not `id` instead fails with the
fixed message "Expect <rule.id>!", which names no rule id.) -/
theorem rule_grammar_strict {F C Cert : Type} (ext : Externals F C Cert)
    (st : ValidatorState F C Cert) (fn : String)
    (entries : List (String × ConfigSection))
    (hf : ∀ s, ∃ f, ext.filterCreate s = .ok f)
    (hc : ∀ s f2, ∃ c, ext.checkerCreate s f2 = .ok c) :
    (isOkE (onConfigRule ext st entries fn) = ruleSectionWellFormed entries) ∧
    (∀ k1 v1 rest e, entries = (k1, v1) :: rest → iequals k1 "id" = true →
      onConfigRule ext st entries fn = .error e → e.namesRuleId = some v1.data) := by
  constructor
  · rcases entries with _ | ⟨⟨k1, v1⟩, _ | ⟨⟨k2, v2⟩, rest⟩⟩
    · simp [onConfigRule, ruleSectionWellFormed, isOkE]
    · cases hk1 : iequals k1 "id" <;>
        simp [onConfigRule, ruleSectionWellFormed, isOkE, hk1]
    · cases hk1 : iequals k1 "id" with
      | false => simp [onConfigRule, ruleSectionWellFormed, isOkE, hk1]
      | true =>
        cases hk2 : iequals k2 "for" with
        | false => simp [onConfigRule, ruleSectionWellFormed, isOkE, hk1, hk2]
        | true =>
          cases hd : iequals v2.data "data" with
          | true =>
            simp [onConfigRule, hk1, hk2, hd, ruleSectionWellFormed,
              onConfigRuleTail_ok_iff ext st fn v1.data true hf hc rest]
          | false =>
            cases hi : iequals v2.data "interest" with
            | true =>
              simp [onConfigRule, hk1, hk2, hd, hi, ruleSectionWellFormed,
                onConfigRuleTail_ok_iff ext st fn v1.data false hf hc rest]
            | false =>
              simp [onConfigRule, ruleSectionWellFormed, isOkE, hk1, hk2, hd, hi]
  · rintro k1 v1 rest e rfl hk1 herr
    rcases rest with _ | ⟨⟨k2, v2⟩, rest2⟩
    · simp [onConfigRule, hk1] at herr
      subst herr
      rfl
    · cases hk2 : iequals k2 "for" with
      | false =>
        simp [onConfigRule, hk1, hk2] at herr
        subst herr
        rfl
      | true =>
        cases hd : iequals v2.data "data" with
        | true =>
          exact onConfigRuleTail_error_names ext st fn v1.data true hf hc rest2 e
            (by simpa [onConfigRule, hk1, hk2, hd] using herr)
        | false =>
          cases hi : iequals v2.data "interest" with
          | true =>
            exact onConfigRuleTail_error_names ext st fn v1.data false hf hc rest2 e
              (by simpa [onConfigRule, hk1, hk2, hd, hi] using herr)
          | false =>
            simp [onConfigRule, hk1, hk2, hd, hi] at herr
            subst herr
            rfl

/-- Witness for C7's amended theorem: the concrete well-formed section. -/
theorem rule_grammar_strict_witness :
    isOkE (onConfigRule extU emptyState goodEntries "conf") =
      ruleSectionWellFormed goodEntries :=
  (rule_grammar_strict extU emptyState "conf" goodEntries
    (fun _ => ⟨(), rfl⟩) (fun _ _ => ⟨(), rfl⟩)).1

/-- C7 counterexample: a deviating rule section that declares id `r1` — but
not as its first entry — is rejected with the fixed error `Expect <rule.id>!`,
which names no rule id at all; so not every deviation's error names the
offending rule id. -/
theorem rule_error_id_counterexample :
    onConfigRule extU emptyState
        [("for", ConfigSection.mk "data" []), ("id", ConfigSection.mk "r1" []),
          ("checker", ConfigSection.mk "" [])] "conf" = .error .expectRuleId ∧
    ConfError.namesRuleId .expectRuleId = none ∧
    declaredRuleId
        [("for", ConfigSection.mk "data" []), ("id", ConfigSection.mk "r1" []),
          ("checker", ConfigSection.mk "" [])] = some "r1" ∧
    ruleSectionWellFormed
        [("for", ConfigSection.mk "data" []), ("id", ConfigSection.mk "r1" []),
          ("checker", ConfigSection.mk "" [])] = false :=
  ⟨rfl, rfl, rfl, rfl⟩
